import Mathlib

/-!
Verification of the Stock-Ward financial time-series normalization and
valuation engine.  Numeric values are modelled as rationals; a pandas NaN
(missing record or null metric) is modelled as `none : Option ℚ`; pandas
float results that can be IEEE infinities are modelled by `FVal`.
-/

namespace StockWard

/-- Cumulative period scheme (CN/HK filings): Q1, H1, Q9, FY. -/
inductive CumPeriod
  | q1
  | h1
  | q9
  | fy
deriving DecidableEq

/-- Single-quarter scheme (US filings): Q1, Q2, Q3, Q4. -/
inductive Quarter
  | q1
  | q2
  | q3
  | q4
deriving DecidableEq

/-- Null-safe subtraction: `a - b` when both operands are present, NaN
otherwise.  Mirrors the `if pd.notna(a) and pd.notna(b)` guards of
`_process_cumulative_data` (modules/core/calculator.py lines 158-174). -/
def nsub : Option ℚ → Option ℚ → Option ℚ
  | some a, some b => some (a - b)
  | _, _ => none

/-- Core cumulative-to-single conversion of one fiscal year for one flow
metric (modules/core/calculator.py lines 149-174).  `get p` is the metric
value disclosed at cumulative period `p` of that year (`none` when the
period row is absent or the value is null, exactly `get_val`).  The flow
branch emits Q1 = Q1, Q2 = H1 - Q1, Q3 = Q9 - H1, Q4 = FY - Q9, null when
an operand is missing. -/
def flowSingle (get : CumPeriod → Option ℚ) : Quarter → Option ℚ
  | .q1 => get .q1
  | .q2 => nsub (get .h1) (get .q1)
  | .q3 => nsub (get .q9) (get .h1)
  | .q4 => nsub (get .fy) (get .q9)

/-- Core conversion, stock branch (modules/core/calculator.py lines
175-180): the quarter takes the corresponding cumulative period's reported
balance, no subtraction. -/
def stockSingle (get : CumPeriod → Option ℚ) : Quarter → Option ℚ
  | .q1 => get .q1
  | .q2 => get .h1
  | .q3 => get .q9
  | .q4 => get .fy

/-- Recursion for the legacy per-year diff conversion: each row's single
value is its cumulative value minus the previous present row's value of
the same year; a row whose period is Q1 keeps its raw cumulative value
(the `mask_q1` fix-up). -/
def legacySinglesGo : Option ℚ → List (CumPeriod × Option ℚ) → List (CumPeriod × Option ℚ)
  | _, [] => []
  | prev, (p, v) :: rest =>
      (p, if p = CumPeriod.q1 then v else nsub v prev) :: legacySinglesGo v rest

/-- Legacy conversion `_calculate_single_quarter_value`
(modules/calculator.py lines 57-75): one fiscal year's cumulative rows,
sorted by period and containing only the periods actually disclosed, are
turned into single-quarter values by `groupby(Year).diff()` followed by
overwriting Q1 rows with the raw cumulative value.  `pandas.diff` has no
previous row for the first row of the year (`none`). -/
def legacySingles (rows : List (CumPeriod × Option ℚ)) : List (CumPeriod × Option ℚ) :=
  legacySinglesGo none rows

/-- The window of `column.rolling(4, ...)` at row `i`: the up-to-4 rows
ending at `i` (truncated Nat subtraction gives rows max(0, i-3) .. i). -/
def window4 (xs : List (Option ℚ)) (i : ℕ) : List (Option ℚ) :=
  (xs.take (i + 1)).drop (i + 1 - 4)

/-- The non-null observations of a window (pandas `rolling` skips NaN
entries and counts only actual observations against `min_periods`). -/
def obs (w : List (Option ℚ)) : List ℚ := w.filterMap id

/-- `column.rolling(4, min_periods=minp).sum()`: row `i` is the sum of the
non-null observations in the trailing 4-row window, null when fewer than
`minp` observations are present.  The core TTM columns use `minp = 1`
(modules/core/calculator.py lines 99 and 204); the legacy TTM uses the
pandas default `minp = 4` (modules/calculator.py line 37). -/
def rollingSum4 (minp : ℕ) (xs : List (Option ℚ)) : List (Option ℚ) :=
  (List.range xs.length).map fun i =>
    let o := obs (window4 xs i)
    if minp ≤ o.length then some o.sum else none

/-- Legacy TTM of a non-growth (stock) metric (modules/calculator.py lines
45-50): the `_TTM` column is a copy of the metric column itself. -/
def legacyStockTTM (xs : List (Option ℚ)) : List (Option ℚ) := xs

end StockWard

namespace StockWard

/-- C1 counterexample input: a fiscal year disclosing Q1 = 1 and Q9 = 5
with H1 missing. -/
def c1CexYear : List (CumPeriod × Option ℚ) :=
  [(CumPeriod.q1, some 1), (CumPeriod.q9, some 5)]

/-- C1: the claim states that the conversion emits Q3_single = Q9 - H1,
null when an operand is missing.  The legacy diff-based conversion
(modules/calculator.py lines 57-75), on a year disclosing Q1 = 1 and
Q9 = 5 with H1 absent, emits 4 = Q9 - Q1 for the Q9 row (displayed as Q3)
instead of null. -/
theorem C1_counterexample :
    legacySingles c1CexYear = [(CumPeriod.q1, some 1), (CumPeriod.q9, some 4)] ∧
    (some (4 : ℚ) ≠ (none : Option ℚ)) := by
  refine ⟨?_, by simp⟩
  show legacySinglesGo none c1CexYear = _
  simp [c1CexYear, legacySinglesGo, nsub]
  norm_num

/-- C1 amended: the core conversion (modules/core/calculator.py lines
149-174) emits exactly Q1, H1 - Q1, Q9 - H1, FY - Q9 for a flow metric,
null whenever an operand is missing; the legacy diff conversion emits the
same four values when all four cumulative periods are present (but
differences against the previous present row, not null, when one is
missing); and whenever Q1, H1, Q9 and FY are all present the four
single-quarter values sum exactly to FY. -/
theorem C1_amended (q1 h1 q9 fy : ℚ) (get : CumPeriod → Option ℚ)
    (hq1 : get CumPeriod.q1 = some q1) (hh1 : get CumPeriod.h1 = some h1)
    (hq9 : get CumPeriod.q9 = some q9) (hfy : get CumPeriod.fy = some fy) :
    flowSingle get Quarter.q1 = some q1 ∧
    flowSingle get Quarter.q2 = some (h1 - q1) ∧
    flowSingle get Quarter.q3 = some (q9 - h1) ∧
    flowSingle get Quarter.q4 = some (fy - q9) ∧
    q1 + (h1 - q1) + (q9 - h1) + (fy - q9) = fy ∧
    legacySingles [(CumPeriod.q1, some q1), (CumPeriod.h1, some h1),
        (CumPeriod.q9, some q9), (CumPeriod.fy, some fy)] =
      [(CumPeriod.q1, some q1), (CumPeriod.h1, some (h1 - q1)),
        (CumPeriod.q9, some (q9 - h1)), (CumPeriod.fy, some (fy - q9))] ∧
    (∀ g : CumPeriod → Option ℚ, g CumPeriod.q1 = none →
      flowSingle g Quarter.q1 = none ∧ flowSingle g Quarter.q2 = none) ∧
    (∀ g : CumPeriod → Option ℚ, g CumPeriod.h1 = none →
      flowSingle g Quarter.q2 = none ∧ flowSingle g Quarter.q3 = none) ∧
    (∀ g : CumPeriod → Option ℚ, g CumPeriod.q9 = none →
      flowSingle g Quarter.q3 = none ∧ flowSingle g Quarter.q4 = none) ∧
    (∀ g : CumPeriod → Option ℚ, g CumPeriod.fy = none →
      flowSingle g Quarter.q4 = none) := by
  refine ⟨?_, ?_, ?_, ?_, by ring, ?_, ?_, ?_, ?_, ?_⟩
  · simp [flowSingle, hq1]
  · simp [flowSingle, hq1, hh1, nsub]
  · simp [flowSingle, hh1, hq9, nsub]
  · simp [flowSingle, hq9, hfy, nsub]
  · show legacySinglesGo none _ = _
    simp [legacySinglesGo, nsub]
  · intro g hg
    constructor
    · simp [flowSingle, hg]
    · simp [flowSingle, hg, nsub]
  · intro g hg
    refine ⟨by simp [flowSingle, hg, nsub], by simp [flowSingle, hg, nsub]⟩
  · intro g hg
    refine ⟨by simp [flowSingle, hg, nsub], by simp [flowSingle, hg, nsub]⟩
  · intro g hg
    simp [flowSingle, hg, nsub]

/-- C1 amended, witnessed at the concrete year Q1 = 3, H1 = 7, Q9 = 12,
FY = 20 (single quarters 3, 4, 5, 8 summing to 20). -/
theorem C1_amended_witness :
    flowSingle (fun p => match p with
      | CumPeriod.q1 => some 3
      | CumPeriod.h1 => some 7
      | CumPeriod.q9 => some 12
      | CumPeriod.fy => some (20 : ℚ)) Quarter.q1 = some 3 ∧
    flowSingle (fun p => match p with
      | CumPeriod.q1 => some 3
      | CumPeriod.h1 => some 7
      | CumPeriod.q9 => some 12
      | CumPeriod.fy => some (20 : ℚ)) Quarter.q2 = some (7 - 3) ∧
    flowSingle (fun p => match p with
      | CumPeriod.q1 => some 3
      | CumPeriod.h1 => some 7
      | CumPeriod.q9 => some 12
      | CumPeriod.fy => some (20 : ℚ)) Quarter.q3 = some (12 - 7) ∧
    flowSingle (fun p => match p with
      | CumPeriod.q1 => some 3
      | CumPeriod.h1 => some 7
      | CumPeriod.q9 => some 12
      | CumPeriod.fy => some (20 : ℚ)) Quarter.q4 = some (20 - 12) ∧
    (3 : ℚ) + (7 - 3) + (12 - 7) + (20 - 12) = 20 ∧
    legacySingles [(CumPeriod.q1, some 3), (CumPeriod.h1, some 7),
        (CumPeriod.q9, some 12), (CumPeriod.fy, some (20 : ℚ))] =
      [(CumPeriod.q1, some 3), (CumPeriod.h1, some (7 - 3)),
        (CumPeriod.q9, some (12 - 7)), (CumPeriod.fy, some (20 - 12))] ∧
    (∀ g : CumPeriod → Option ℚ, g CumPeriod.q1 = none →
      flowSingle g Quarter.q1 = none ∧ flowSingle g Quarter.q2 = none) ∧
    (∀ g : CumPeriod → Option ℚ, g CumPeriod.h1 = none →
      flowSingle g Quarter.q2 = none ∧ flowSingle g Quarter.q3 = none) ∧
    (∀ g : CumPeriod → Option ℚ, g CumPeriod.q9 = none →
      flowSingle g Quarter.q3 = none ∧ flowSingle g Quarter.q4 = none) ∧
    (∀ g : CumPeriod → Option ℚ, g CumPeriod.fy = none →
      flowSingle g Quarter.q4 = none) :=
  C1_amended 3 7 12 20 _ rfl rfl rfl rfl

theorem rollingSum4_getD (minp : ℕ) (xs : List (Option ℚ)) (i : ℕ) (hi : i < xs.length) :
    (rollingSum4 minp xs).getD i none =
      (if minp ≤ (obs (window4 xs i)).length then some (obs (window4 xs i)).sum
        else none) := by
  simp [rollingSum4, List.getD_eq_getElem?_getD, List.getElem?_range, hi]

theorem window4_map_some (xs : List ℚ) (i : ℕ) :
    window4 (xs.map some) i = ((xs.take (i + 1)).drop (i + 1 - 4)).map some := by
  simp [window4, List.map_take, List.map_drop]

theorem obs_map_some (l : List ℚ) : obs (l.map some) = l := by
  simp [obs, List.filterMap_map]

theorem window4_length (xs : List (Option ℚ)) (i : ℕ) (hi : i < xs.length) :
    (window4 xs i).length = min (i + 1) 4 := by
  simp only [window4, List.length_drop, List.length_take]
  omega

/-- C2: a single-quarter series with only one quarter of history.  The core
calculator computes TTM with `rolling(4, min_periods=1).sum()`
(modules/core/calculator.py line 99), so the TTM at the very first quarter
is already non-null (it is the quarter's own value), refuting the claim
that TTM is null until at least 4 consecutive quarters are available. -/
theorem C2_counterexample :
    rollingSum4 1 [some (5 : ℚ)] = [some 5] ∧ ¬ (4 ≤ ([some (5 : ℚ)]).length) := by
  constructor
  · simp [rollingSum4, window4, obs, List.range_succ]
  · simp

/-- C2 amended: for a gap-free fully non-null single-quarter column,
the core TTM (min_periods = 1) is non-null at every row, summing however
few quarters exist; the legacy TTM (the pandas default min_periods = 4,
modules/calculator.py line 37) is non-null exactly from the 4th row on,
where both equal the sum of the last 4 rows; rows are indexed by position
in the sorted frame, not by an absolute quarter sequence; and the legacy
TTM of a stock (non-growth) metric is the metric column itself. -/
theorem C2_amended (xs : List ℚ) (i : ℕ) (hi : i < xs.length) :
    ((rollingSum4 1 (xs.map some)).getD i none).isSome = true ∧
    (((rollingSum4 4 (xs.map some)).getD i none).isSome = true ↔ 3 ≤ i) ∧
    (3 ≤ i → (rollingSum4 4 (xs.map some)).getD i none =
        some ((xs.take (i + 1)).drop (i - 3)).sum) ∧
    (∀ ys : List (Option ℚ), legacyStockTTM ys = ys) := by
  have hi' : i < (xs.map some).length := by simpa using hi
  have hobs : obs (window4 (xs.map some) i) = (xs.take (i + 1)).drop (i + 1 - 4) := by
    rw [window4_map_some, obs_map_some]
  have hlen : (obs (window4 (xs.map some) i)).length = min (i + 1) 4 := by
    rw [hobs]
    have := window4_length (xs.map some) i hi'
    rw [window4_map_some] at this
    simpa using this
  refine ⟨?_, ?_, ?_, fun ys => rfl⟩
  · rw [rollingSum4_getD 1 _ i hi', if_pos (by omega)]
    rfl
  · rw [rollingSum4_getD 4 _ i hi']
    by_cases h : 3 ≤ i
    · rw [if_pos (by omega)]
      simp [h]
    · rw [if_neg (by omega)]
      simp [h]
  · intro h
    rw [rollingSum4_getD 4 _ i hi', if_pos (by omega), hobs]
    have h4 : i + 1 - 4 = i - 3 := by omega
    rw [h4]

/-- C2 amended, witnessed on the column 1, 2, 3, 4, 5 at its last row. -/
theorem C2_amended_witness :
    ((rollingSum4 1 (([1, 2, 3, 4, 5] : List ℚ).map some)).getD 4 none).isSome = true ∧
    (((rollingSum4 4 (([1, 2, 3, 4, 5] : List ℚ).map some)).getD 4 none).isSome = true ↔
      3 ≤ 4) ∧
    (3 ≤ 4 → (rollingSum4 4 (([1, 2, 3, 4, 5] : List ℚ).map some)).getD 4 none =
        some ((([1, 2, 3, 4, 5] : List ℚ).take 5).drop 1).sum) ∧
    (∀ ys : List (Option ℚ), legacyStockTTM ys = ys) :=
  C2_amended [1, 2, 3, 4, 5] 4 (by norm_num)

/-- Pandas float results: a finite value, an IEEE infinity (produced by
dividing a nonzero number by zero, which pandas does not raise on), or
NaN. -/
inductive FVal
  | fin (q : ℚ)
  | posInf
  | negInf
  | nan
deriving DecidableEq

/-- Pandas elementwise division with no zero guard: NaN if either operand
is null, plus or minus infinity when a nonzero numerator meets a zero
denominator, NaN for zero over zero. -/
def pandasDiv (num den : Option ℚ) : FVal :=
  match num, den with
  | some n, some d =>
      if d = 0 then (if 0 < n then FVal.posInf else if n < 0 then FVal.negInf else FVal.nan)
      else FVal.fin (n / d)
  | _, _ => FVal.nan

/-- The denominator build of the core single-quarter YoY:
`prev.abs().replace(0, np.nan)` (modules/core/calculator.py line 103). -/
def absReplaceZero : Option ℚ → Option ℚ
  | some p => if |p| = 0 then none else some |p|
  | none => none

/-- Guarded YoY of the core single-quarter path
(modules/core/calculator.py lines 101-109): (curr - prev) divided by
`prev.abs().replace(0, np.nan)`, so a zero or null prior value makes the
ratio NaN (a null cell), never an infinity. -/
def yoyGuarded (curr prev : Option ℚ) : FVal :=
  pandasDiv (nsub curr prev) (absReplaceZero prev)

/-- Unguarded YoY of the core cumulative path
(modules/core/calculator.py lines 206-212): the denominator is
`prev.abs()` with no zero replacement, so a zero prior value divides a
(possibly nonzero) numerator by zero. -/
def yoyUnguarded (curr prev : Option ℚ) : FVal :=
  pandasDiv (nsub curr prev) (prev.map (fun p => |p|))

/-- Legacy QoQ `_calculate_qoq` (modules/calculator.py lines 111-123):
`pct_change()`, i.e. (curr - prev) / prev with the signed previous value
as denominator and no zero guard. -/
def qoqPctChange (curr prev : Option ℚ) : FVal :=
  pandasDiv (nsub curr prev) prev

/-- Ratio recomputation `recalculate_ratios`
(modules/core/calculator.py lines 246-255): (numerator / denominator) *
scale, guarded to null when the denominator is null or zero or the
numerator is null. -/
def recalcRatio (num den : Option ℚ) (scale : ℚ) : Option ℚ :=
  match num, den with
  | some n, some d => if d ≠ 0 then some (n / d * scale) else none
  | _, _ => none

/-- C3: the cumulative path's YoY (modules/core/calculator.py lines
206-208) divides by abs(prev) with no zero guard, so a prior value of 0
followed by a current value of 1 yields plus infinity in the externally
visible YoY column, not null. -/
theorem C3_counterexample :
    yoyUnguarded (some 1) (some 0) = FVal.posInf ∧
    FVal.posInf ≠ FVal.nan ∧
    qoqPctChange (some 1) (some 0) = FVal.posInf := by
  refine ⟨?_, by simp, ?_⟩
  · simp [yoyUnguarded, pandasDiv, nsub]
  · simp [qoqPctChange, pandasDiv, nsub]

/-- C3 amended: the single-quarter path's YoY and TTM-YoY and the ratio
recomputation return null on zero or null denominators and divide by the
absolute base value; but the cumulative path's YoY yields an infinity
when the base-period value is zero and the numerator is nonzero, and the
legacy QoQ divides by the signed (not absolute) previous value, likewise
yielding an infinity at zero.  No path raises an exception. -/
theorem C3_amended (c p n d s : ℚ) (hp : p ≠ 0) (hneg : p < 0) :
    yoyGuarded (some c) (some 0) = FVal.nan ∧
    (∀ x : Option ℚ, yoyGuarded x none = FVal.nan ∧ yoyGuarded none x = FVal.nan) ∧
    yoyGuarded (some c) (some p) = FVal.fin ((c - p) / |p|) ∧
    (∀ x y : Option ℚ, yoyGuarded x y ≠ FVal.posInf ∧ yoyGuarded x y ≠ FVal.negInf) ∧
    recalcRatio (some n) (some 0) s = none ∧
    recalcRatio none (some d) s = none ∧
    recalcRatio (some n) none s = none ∧
    (d ≠ 0 → recalcRatio (some n) (some d) s = some (n / d * s)) ∧
    (0 < c → yoyUnguarded (some c) (some 0) = FVal.posInf) ∧
    (c < 0 → yoyUnguarded (some c) (some 0) = FVal.negInf) ∧
    qoqPctChange (some c) (some p) = FVal.fin ((c - p) / p) ∧
    (c - p) / p = -((c - p) / |p|) := by
  refine ⟨?_, ?_, ?_, ?_, ?_, ?_, ?_, ?_, ?_, ?_, ?_, ?_⟩
  · simp [yoyGuarded, absReplaceZero, pandasDiv, nsub]
  · intro x
    constructor
    · cases x <;> simp [yoyGuarded, absReplaceZero, pandasDiv, nsub]
    · cases x <;> simp [yoyGuarded, absReplaceZero, pandasDiv, nsub]
  · have h1 : ¬ (|p| = 0) := by simpa [abs_eq_zero] using hp
    have h2 : |p| ≠ 0 := h1
    simp [yoyGuarded, absReplaceZero, pandasDiv, nsub, h1, h2]
  · intro x y
    refine ⟨?_, ?_⟩ <;>
    · cases x with
      | none =>
          cases y with
          | none => simp [yoyGuarded, absReplaceZero, pandasDiv, nsub]
          | some q =>
              by_cases hq : |q| = 0 <;>
                simp [yoyGuarded, absReplaceZero, pandasDiv, nsub, hq]
      | some r =>
          cases y with
          | none => simp [yoyGuarded, absReplaceZero, pandasDiv, nsub]
          | some q =>
              by_cases hq : |q| = 0 <;>
                simp [yoyGuarded, absReplaceZero, pandasDiv, nsub, hq]
  · simp [recalcRatio]
  · simp [recalcRatio]
  · simp [recalcRatio]
  · intro hd
    simp [recalcRatio, hd]
  · intro hc
    simp [yoyUnguarded, pandasDiv, nsub, hc]
  · intro hc
    simp [yoyUnguarded, pandasDiv, nsub, hc, not_lt_of_lt hc]
  · simp [qoqPctChange, pandasDiv, nsub, hp]
  · rw [abs_of_neg hneg]
    ring

/-- C3 amended, witnessed at current 3, previous -2, ratio 5 / 10 scaled
by 100. -/
theorem C3_amended_witness :
    yoyGuarded (some 3) (some 0) = FVal.nan ∧
    (∀ x : Option ℚ, yoyGuarded x none = FVal.nan ∧ yoyGuarded none x = FVal.nan) ∧
    yoyGuarded (some 3) (some (-2)) = FVal.fin ((3 - (-2)) / |(-2 : ℚ)|) ∧
    (∀ x y : Option ℚ, yoyGuarded x y ≠ FVal.posInf ∧ yoyGuarded x y ≠ FVal.negInf) ∧
    recalcRatio (some 5) (some 0) 100 = none ∧
    recalcRatio none (some 10) 100 = none ∧
    recalcRatio (some 5) none 100 = none ∧
    ((10 : ℚ) ≠ 0 → recalcRatio (some 5) (some 10) 100 = some (5 / 10 * 100)) ∧
    ((0 : ℚ) < 3 → yoyUnguarded (some 3) (some 0) = FVal.posInf) ∧
    ((3 : ℚ) < 0 → yoyUnguarded (some 3) (some 0) = FVal.negInf) ∧
    qoqPctChange (some 3) (some (-2)) = FVal.fin ((3 - (-2)) / (-2)) ∧
    ((3 : ℚ) - (-2)) / (-2) = -((3 - (-2)) / |(-2 : ℚ)|) :=
  C3_amended 3 (-2) 5 10 100 (by norm_num) (by norm_num)

/-- One iteration of the 5-year projection loop
(modules/valuation/valuation_DCF.py lines 122-129, also the reverse-DCF
and Monte Carlo loops): the state is (current FCF, accumulated present
value); step i multiplies the FCF by (1 + g) and discounts it by
(1 + w) ^ i. -/
def projStep (g w : ℚ) (s : ℚ × ℚ) (i : ℕ) : ℚ × ℚ :=
  let curr := s.1 * (1 + g)
  (curr, s.2 + curr / (1 + w) ^ i)

/-- The 5-year stage-1 projection: the loop `for i in range(1, 6)` run
from (base FCF, 0). -/
def projectFive (fcf g w : ℚ) : ℚ × ℚ :=
  [1, 2, 3, 4, 5].foldl (projStep g w) (fcf, 0)

/-- Enterprise value of the forward DCF
(modules/valuation/valuation_DCF.py lines 101-135): stage-1 present value
plus the terminal value FCF5 * (1 + p) / (w - p) discounted 5 years. -/
def dcfEv (fcf g w p : ℚ) : ℚ :=
  let s := projectFive fcf g w
  let termVal := s.1 * (1 + p) / (w - p)
  s.2 + termVal / (1 + w) ^ 5

/-- The DCF tab rejects WACC ≤ terminal growth with an explicit error
before running the projection (modules/valuation/valuation_DCF.py lines
97-99; same guard in the legacy modules/valuation_DCF.py lines 87-89),
and otherwise computes a numeric EV. -/
def dcfRun (fcf g w p : ℚ) : Except String ℚ :=
  if w ≤ p then Except.error "WACC must exceed the terminal growth rate"
  else Except.ok (dcfEv fcf g w p)

/-- Closed form of the projected enterprise value: a polynomial in
(1 + g) whose coefficients are positive whenever fcf > 0, 1 + w > 0,
1 + p > 0 and w > p. -/
theorem dcfEv_eq (fcf g w p : ℚ) :
    dcfEv fcf g w p =
      fcf / (1 + w) ^ 1 * (1 + g) ^ 1 + fcf / (1 + w) ^ 2 * (1 + g) ^ 2 +
        fcf / (1 + w) ^ 3 * (1 + g) ^ 3 + fcf / (1 + w) ^ 4 * (1 + g) ^ 4 +
        fcf / (1 + w) ^ 5 * (1 + g) ^ 5 +
        fcf * (1 + p) / (w - p) / (1 + w) ^ 5 * (1 + g) ^ 5 := by
  simp only [dcfEv, projectFive, projStep, List.foldl]
  ring

/-- C5: the DCF guard.  An invocation with WACC ≤ terminal growth is
rejected with an explicit error before projection and produces no numeric
EV; an invocation with WACC strictly greater than terminal growth
produces the numeric enterprise value. -/
theorem C5_dcf_guard (fcf g w p : ℚ) :
    (w ≤ p → dcfRun fcf g w p =
      Except.error "WACC must exceed the terminal growth rate") ∧
    (p < w → dcfRun fcf g w p = Except.ok (dcfEv fcf g w p)) := by
  constructor
  · intro h
    simp [dcfRun, h]
  · intro h
    simp [dcfRun, not_le_of_lt h]

/-- C5 witnessed: WACC 2.5% ≤ growth 10% is rejected; WACC 10% with
growth 2.5% yields the numeric EV. -/
theorem C5_dcf_guard_witness :
    dcfRun 1 0 (1 / 40) (1 / 10) =
      Except.error "WACC must exceed the terminal growth rate" ∧
    dcfRun 1 0 (1 / 10) (1 / 40) = Except.ok (dcfEv 1 0 (1 / 10) (1 / 40)) :=
  ⟨(C5_dcf_guard 1 0 (1 / 40) (1 / 10)).1 (by norm_num),
    (C5_dcf_guard 1 0 (1 / 10) (1 / 40)).2 (by norm_num)⟩

theorem mulPowLt (k x1 x2 : ℚ) (hk : 0 < k) (h0 : 0 ≤ x1) (h : x1 < x2)
    (i : ℕ) (hi : i ≠ 0) : k * x1 ^ i < k * x2 ^ i :=
  mul_lt_mul_of_pos_left (pow_lt_pow_left₀ h h0 hi) hk

/-- For a positive base FCF the projected enterprise value is strictly
increasing in the short-term growth rate: every coefficient of the
closed-form polynomial in (1 + g) is positive. -/
theorem dcfEv_growth_lt_of_pos (fcf w p g1 g2 : ℚ)
    (hf : 0 < fcf) (hg1 : -1 ≤ g1) (hg : g1 < g2) (hp1 : -1 < p) (hpw : p < w) :
    dcfEv fcf g1 w p < dcfEv fcf g2 w p := by
  have hu : (0 : ℚ) < 1 + w := by linarith
  have hui : ∀ i : ℕ, (0 : ℚ) < (1 + w) ^ i := fun i => pow_pos hu i
  have hD : (0 : ℚ) < w - p := by linarith
  have hx0 : (0 : ℚ) ≤ 1 + g1 := by linarith
  have hx : 1 + g1 < 1 + g2 := by linarith
  have hp0 : (0 : ℚ) < 1 + p := by linarith
  rw [dcfEv_eq, dcfEv_eq]
  have h1 := mulPowLt (fcf / (1 + w) ^ 1) (1 + g1) (1 + g2)
    (div_pos hf (hui 1)) hx0 hx 1 one_ne_zero
  have h2 := mulPowLt (fcf / (1 + w) ^ 2) (1 + g1) (1 + g2)
    (div_pos hf (hui 2)) hx0 hx 2 (by norm_num)
  have h3 := mulPowLt (fcf / (1 + w) ^ 3) (1 + g1) (1 + g2)
    (div_pos hf (hui 3)) hx0 hx 3 (by norm_num)
  have h4 := mulPowLt (fcf / (1 + w) ^ 4) (1 + g1) (1 + g2)
    (div_pos hf (hui 4)) hx0 hx 4 (by norm_num)
  have h5 := mulPowLt (fcf / (1 + w) ^ 5) (1 + g1) (1 + g2)
    (div_pos hf (hui 5)) hx0 hx 5 (by norm_num)
  have h6 := mulPowLt (fcf * (1 + p) / (w - p) / (1 + w) ^ 5) (1 + g1) (1 + g2)
    (div_pos (div_pos (mul_pos hf hp0) hD) (hui 5)) hx0 hx 5 (by norm_num)
  linarith

/-- The projected enterprise value is linear in the base FCF: negating
the base FCF negates the EV. -/
theorem dcfEv_neg (fcf g w p : ℚ) : dcfEv (-fcf) g w p = -dcfEv fcf g w p := by
  rw [dcfEv_eq, dcfEv_eq]
  ring

/-- C7: the claim holds for no sign restriction on the base FCF, but a
negative base FCF passes the code's `base_fcf == 0` data guard
(modules/valuation/valuation_DCF.py lines 21-36 test only for zero), and
there the projected EV strictly falls as the short-term growth rate
rises: with base FCF -1, WACC 10%, terminal growth 2.5%, raising the
growth from 0% to 10% strictly lowers the EV, so EV at the larger growth
is not greater. -/
theorem C7_counterexample :
    dcfEv (-1) (1 / 10) (1 / 10) (1 / 40) < dcfEv (-1) 0 (1 / 10) (1 / 40) ∧
    ¬ (dcfEv (-1) 0 (1 / 10) (1 / 40) < dcfEv (-1) (1 / 10) (1 / 10) (1 / 40)) := by
  have h : dcfEv (-1) (1 / 10) (1 / 10) (1 / 40) < dcfEv (-1) 0 (1 / 10) (1 / 40) := by
    rw [dcfEv_eq, dcfEv_eq]
    norm_num
  exact ⟨h, not_lt.mpr (le_of_lt h)⟩

/-- C7 amended: holding WACC, terminal growth and the 5-year horizon
fixed (growth rates above -100 percent, WACC strictly above the terminal
growth, itself above -100 percent), a strictly larger short-term growth
rate strictly increases the projected enterprise value when the base FCF
is positive, and strictly decreases it when the base FCF is negative
(a case the code's zero-only data guard lets through). -/
theorem C7_amended (fcf w p g1 g2 : ℚ)
    (hg1 : -1 ≤ g1) (hg : g1 < g2) (hp1 : -1 < p) (hpw : p < w) :
    (0 < fcf → dcfEv fcf g1 w p < dcfEv fcf g2 w p) ∧
    (fcf < 0 → dcfEv fcf g2 w p < dcfEv fcf g1 w p) := by
  constructor
  · intro hf
    exact dcfEv_growth_lt_of_pos fcf w p g1 g2 hf hg1 hg hp1 hpw
  · intro hf
    have hpos : (0 : ℚ) < -fcf := by linarith
    have h := dcfEv_growth_lt_of_pos (-fcf) w p g1 g2 hpos hg1 hg hp1 hpw
    rw [dcfEv_neg, dcfEv_neg] at h
    linarith

/-- C7 amended, witnessed at WACC 10%, terminal growth 2.5%, growth
rates 0% and 10%: with FCF 1 the EV strictly rises, with FCF -1 it
strictly falls. -/
theorem C7_amended_witness :
    dcfEv 1 0 (1 / 10) (1 / 40) < dcfEv 1 (1 / 10) (1 / 10) (1 / 40) ∧
    dcfEv (-1) (1 / 10) (1 / 10) (1 / 40) < dcfEv (-1) 0 (1 / 10) (1 / 40) :=
  ⟨(C7_amended 1 (1 / 10) (1 / 40) 0 (1 / 10) (by norm_num) (by norm_num)
      (by norm_num) (by norm_num)).1 (by norm_num),
    (C7_amended (-1) (1 / 10) (1 / 40) 0 (1 / 10) (by norm_num) (by norm_num)
      (by norm_num) (by norm_num)).2 (by norm_num)⟩

/-- calc_ev of the reverse-DCF solver
(modules/valuation/valuation_advanced.py lines 128-138): the same 5-year
loop and terminal value as the forward DCF, with the candidate growth
rate applied uniformly. -/
def calcEv (fcf w p g : ℚ) : ℚ :=
  let s := projectFive fcf g w
  s.2 + s.1 * (1 + p) / (w - p) / (1 + w) ^ 5

theorem calcEv_eq_dcfEv (fcf w p g : ℚ) : calcEv fcf w p g = dcfEv fcf g w p := rfl

/-- The bisection loop of the reverse-DCF
(modules/valuation/valuation_advanced.py lines 141-154) with the given
number of iterations remaining.  The state is (low, high, implied_growth);
the result pairs the final implied growth with whether the tolerance
break was hit. -/
def bisectGo (f : ℚ → ℚ) (target : ℚ) : ℕ → ℚ → ℚ → ℚ → ℚ × Bool
  | 0, _, _, acc => (acc, false)
  | n + 1, lo, hi, _ =>
    let mid := (lo + hi) / 2
    let ev := f mid
    if |ev - target| < target * (1 / 1000) then (mid, true)
    else if ev < target then bisectGo f target n mid hi mid
    else bisectGo f target n lo mid mid

/-- The solver: 50 iterations of bisection over [-0.2, 0.5], starting
implied growth 0. -/
def bisect (f : ℚ → ℚ) (target : ℚ) : ℚ × Bool :=
  bisectGo f target 50 (-(1 / 5)) (1 / 2) 0

/-- What the reverse-DCF tab reports after the loop: the implied growth
alone (the rendered metrics carry no indication of whether the break was
reached). -/
def impliedGrowth (fcf w p target : ℚ) : ℚ :=
  (bisect (calcEv fcf w p) target).1

theorem calcEv_nonpos (fcf w p g : ℚ) (hf : fcf ≤ 0) (hg : 0 ≤ 1 + g)
    (hw : 0 < 1 + w) (hp0 : 0 ≤ 1 + p) (hD : p < w) :
    calcEv fcf w p g ≤ 0 := by
  rw [calcEv_eq_dcfEv, dcfEv_eq]
  have hui : ∀ i : ℕ, (0 : ℚ) < (1 + w) ^ i := fun i => pow_pos hw i
  have hxi : ∀ i : ℕ, (0 : ℚ) ≤ (1 + g) ^ i := fun i => pow_nonneg hg i
  have hk : ∀ i : ℕ, fcf / (1 + w) ^ i ≤ 0 := fun i =>
    div_nonpos_of_nonpos_of_nonneg hf (le_of_lt (hui i))
  have hterm : ∀ i : ℕ, fcf / (1 + w) ^ i * (1 + g) ^ i ≤ 0 := fun i =>
    mul_nonpos_of_nonpos_of_nonneg (hk i) (hxi i)
  have hnum : fcf * (1 + p) ≤ 0 := mul_nonpos_of_nonpos_of_nonneg hf hp0
  have hk6 : fcf * (1 + p) / (w - p) / (1 + w) ^ 5 ≤ 0 :=
    div_nonpos_of_nonpos_of_nonneg
      (div_nonpos_of_nonpos_of_nonneg hnum (by linarith)) (le_of_lt (hui 5))
  have h6 : fcf * (1 + p) / (w - p) / (1 + w) ^ 5 * (1 + g) ^ 5 ≤ 0 :=
    mul_nonpos_of_nonpos_of_nonneg hk6 (hxi 5)
  linarith [hterm 1, hterm 2, hterm 3, hterm 4, hterm 5]

theorem bisectGo_no_break (f : ℚ → ℚ) (t : ℚ) (ht : 0 < t)
    (hf : ∀ g, -(1 / 5) ≤ g → g ≤ 1 / 2 → f g ≤ 0) :
    ∀ n lo hi acc, -(1 / 5) ≤ lo → lo ≤ hi → hi ≤ 1 / 2 →
      (bisectGo f t n lo hi acc).2 = false := by
  intro n
  induction n with
  | zero =>
      intro lo hi acc _ _ _
      rfl
  | succ n ih =>
      intro lo hi acc h1 h2 h3
      have hmidlo : lo ≤ (lo + hi) / 2 := by linarith
      have hmidhi : (lo + hi) / 2 ≤ hi := by linarith
      have hev : f ((lo + hi) / 2) ≤ 0 := hf _ (by linarith) (by linarith)
      have habs : |f ((lo + hi) / 2) - t| = t - f ((lo + hi) / 2) := by
        rw [abs_of_nonpos (by linarith)]
        ring
      have htol : ¬ (|f ((lo + hi) / 2) - t| < t * (1 / 1000)) := by
        rw [habs]
        push_neg
        linarith
      simp only [bisectGo]
      rw [if_neg htol]
      by_cases hcmp : f ((lo + hi) / 2) < t
      · rw [if_pos hcmp]
        exact ih _ _ _ (by linarith) hmidhi h3
      · rw [if_neg hcmp]
        exact ih _ _ _ h1 hmidlo (by linarith)

theorem bisectGo_mem (f : ℚ → ℚ) (t : ℚ) :
    ∀ n lo hi acc, -(1 / 5) ≤ lo → lo ≤ hi → hi ≤ 1 / 2 →
      -(1 / 5) ≤ acc → acc ≤ 1 / 2 →
      -(1 / 5) ≤ (bisectGo f t n lo hi acc).1 ∧ (bisectGo f t n lo hi acc).1 ≤ 1 / 2 := by
  intro n
  induction n with
  | zero =>
      intro lo hi acc _ _ _ h4 h5
      exact ⟨h4, h5⟩
  | succ n ih =>
      intro lo hi acc h1 h2 h3 _ _
      have hmidlo : lo ≤ (lo + hi) / 2 := by linarith
      have hmidhi : (lo + hi) / 2 ≤ hi := by linarith
      simp only [bisectGo]
      by_cases htol : |f ((lo + hi) / 2) - t| < t * (1 / 1000)
      · rw [if_pos htol]
        exact ⟨by linarith, by linarith⟩
      · rw [if_neg htol]
        by_cases hcmp : f ((lo + hi) / 2) < t
        · rw [if_pos hcmp]
          exact ih _ _ _ (by linarith) hmidhi h3 (by linarith) (by linarith)
        · rw [if_neg hcmp]
          exact ih _ _ _ h1 hmidlo (by linarith) (by linarith) (by linarith)

theorem bisectGo_tol (f : ℚ → ℚ) (t : ℚ) :
    ∀ n lo hi acc, (bisectGo f t n lo hi acc).2 = true →
      |f (bisectGo f t n lo hi acc).1 - t| < t * (1 / 1000) := by
  intro n
  induction n with
  | zero =>
      intro lo hi acc h
      exact absurd h (by simp [bisectGo])
  | succ n ih =>
      intro lo hi acc h
      simp only [bisectGo] at h ⊢
      by_cases htol : |f ((lo + hi) / 2) - t| < t * (1 / 1000)
      · rw [if_pos htol] at h ⊢
        simpa using htol
      · rw [if_neg htol] at h ⊢
        by_cases hcmp : f ((lo + hi) / 2) < t
        · rw [if_pos hcmp] at h ⊢
          exact ih _ _ _ h
        · rw [if_neg hcmp] at h ⊢
          exact ih _ _ _ h

/-- C6: a run on which the solver does not converge.  With base FCF -1
(nonzero, so it passes the data guard), WACC 10%, terminal growth 2.5%
and target market cap 100, every candidate EV is nonpositive, the
tolerance break is never hit in 50 iterations, and the growth the tab
reports still fails the 0.1% relative tolerance - yet the only rendered
value is that growth, with no did-not-converge indicator. -/
theorem C6_counterexample :
    (bisect (calcEv (-1) (1 / 10) (1 / 40)) 100).2 = false ∧
    ¬ (|calcEv (-1) (1 / 10) (1 / 40) (impliedGrowth (-1) (1 / 10) (1 / 40) 100) - 100| <
        100 * (1 / 1000)) := by
  have hf : ∀ g : ℚ, -(1 / 5) ≤ g → g ≤ 1 / 2 → calcEv (-1) (1 / 10) (1 / 40) g ≤ 0 := by
    intro g h1 h2
    exact calcEv_nonpos _ _ _ _ (by norm_num) (by linarith) (by norm_num) (by norm_num)
      (by norm_num)
  constructor
  · exact bisectGo_no_break _ _ (by norm_num) hf 50 _ _ _ (by norm_num) (by norm_num)
      (by norm_num)
  · have hmem := bisectGo_mem (calcEv (-1) (1 / 10) (1 / 40)) 100 50 (-(1 / 5)) (1 / 2) 0
      (by norm_num) (by norm_num) (by norm_num) (by norm_num) (by norm_num)
    have hval := hf _ hmem.1 hmem.2
    intro hcon
    simp only [impliedGrowth, bisect] at hcon
    have h1 := (abs_lt.mp hcon).1
    linarith

/-- C6 amended: the solver bisects within the bounded interval
[-0.2, 0.5] (the reported implied growth always lies in it), runs at most
50 iterations (it is a total function of its inputs, hence terminates
deterministically within the cap), breaks early exactly on the 0.1%
relative tolerance test - when the break is hit the reported growth
meets the tolerance - and on non-convergence it silently reports the
final bisection midpoint with no did-not-converge indicator. -/
theorem C6_amended (f : ℚ → ℚ) (t : ℚ) :
    (-(1 / 5) ≤ (bisect f t).1 ∧ (bisect f t).1 ≤ 1 / 2) ∧
    ((bisect f t).2 = true → |f (bisect f t).1 - t| < t * (1 / 1000)) :=
  ⟨bisectGo_mem f t 50 _ _ _ (by norm_num) (by norm_num) (by norm_num) (by norm_num)
      (by norm_num),
    bisectGo_tol f t 50 _ _ _⟩

/-- C6 amended, witnessed on the reverse-DCF objective with base FCF 1,
WACC 10%, terminal growth 2.5% and target 100. -/
theorem C6_amended_witness :
    (-(1 / 5) ≤ (bisect (calcEv 1 (1 / 10) (1 / 40)) 100).1 ∧
      (bisect (calcEv 1 (1 / 10) (1 / 40)) 100).1 ≤ 1 / 2) ∧
    ((bisect (calcEv 1 (1 / 10) (1 / 40)) 100).2 = true →
      |calcEv 1 (1 / 10) (1 / 40) (bisect (calcEv 1 (1 / 10) (1 / 40)) 100).1 - 100| <
        100 * (1 / 1000)) :=
  C6_amended (calcEv 1 (1 / 10) (1 / 40)) 100

/-- PEG of the advanced-valuation tab
(modules/valuation/valuation_advanced.py line 298): PE over the growth
rate expressed as a percentage number, float infinity when that
percentage is not positive. -/
def pegAdvanced (pe growthPct : ℚ) : FVal :=
  if 0 < growthPct then FVal.fin (pe / growthPct) else FVal.posInf

/-- Fisher-adjusted PEG of the advanced-valuation tab
(modules/valuation/valuation_advanced.py lines 300-311): denominator
growth% + 2 * risk-free%, float infinity when that is not positive. -/
def fisherPegAdvanced (pe growthPct rfPct : ℚ) : FVal :=
  let d := growthPct + 2 * rfPct
  if 0 < d then FVal.fin (pe / d) else FVal.posInf

/-- Plain PEG of the PE tab (modules/valuation/valuation_PE.py line
159): PE over the growth percentage, unguarded (the input widget keeps
the growth at least 0.1). -/
def pegPEtab (pe growthPct : ℚ) : ℚ := pe / growthPct

/-- Rate-adjusted PEG of the PE tab (modules/valuation/valuation_PE.py
lines 161-170): the denominator is growth% minus risk-free%, float
infinity when that is not positive. -/
def adjustedPegPEtab (pe growthPct rfPct : ℚ) : FVal :=
  let ag := growthPct - rfPct
  if 0 < ag then FVal.fin (pe / ag) else FVal.posInf

/-- C4: at PE 20, growth 10% and risk-free 4%, the PE tab's
interest-rate-adjusted PEG (lines 159-170 of the cited source) is
20 / (10 - 4) = 10/3, not 20 / (10 + 8) = 10/9: the program's second
adjusted-PEG site does not divide by growth% + 2 * rf%. -/
theorem C4_counterexample :
    adjustedPegPEtab 20 10 4 = FVal.fin (10 / 3) ∧
    FVal.fin ((10 : ℚ) / 3) ≠ FVal.fin (10 / 9) := by
  constructor
  · simp only [adjustedPegPEtab]
    norm_num
  · simp only [ne_eq, FVal.fin.injEq]
    norm_num

/-- C4 amended: for a positive growth percentage, PEG = PE / growth% at
both sites; the advanced tab's Fisher-adjusted PEG is
PE / (growth% + 2 * rf%) (so PE 20, growth 10, rf 4 give PEG 2.0 and
adjusted PEG 20/18 = 10/9 there), while the PE tab's adjusted PEG is
PE / (growth% - rf%) (giving 10/3 on the same inputs); each adjusted
variant degrades to float infinity when its denominator is not
positive. -/
theorem C4_amended (pe g rf : ℚ) (hg : 0 < g) :
    pegAdvanced pe g = FVal.fin (pe / g) ∧
    pegPEtab pe g = pe / g ∧
    (0 < g + 2 * rf → fisherPegAdvanced pe g rf = FVal.fin (pe / (g + 2 * rf))) ∧
    (g + 2 * rf ≤ 0 → fisherPegAdvanced pe g rf = FVal.posInf) ∧
    (0 < g - rf → adjustedPegPEtab pe g rf = FVal.fin (pe / (g - rf))) ∧
    (g - rf ≤ 0 → adjustedPegPEtab pe g rf = FVal.posInf) ∧
    pegAdvanced 20 10 = FVal.fin 2 ∧
    fisherPegAdvanced 20 10 4 = FVal.fin (10 / 9) ∧
    adjustedPegPEtab 20 10 4 = FVal.fin (10 / 3) := by
  refine ⟨by simp [pegAdvanced, hg], rfl, ?_, ?_, ?_, ?_, ?_, ?_, ?_⟩
  · intro h
    simp [fisherPegAdvanced, h]
  · intro h
    simp [fisherPegAdvanced, not_lt.mpr h]
  · intro h
    simp [adjustedPegPEtab, h]
  · intro h
    simp [adjustedPegPEtab, not_lt.mpr h]
  · simp only [pegAdvanced]
    norm_num
  · simp only [fisherPegAdvanced]
    norm_num
  · simp only [adjustedPegPEtab]
    norm_num

/-- C4 amended, witnessed at PE 20, growth 10%, risk-free 4%. -/
theorem C4_amended_witness :
    pegAdvanced 20 10 = FVal.fin ((20 : ℚ) / 10) ∧
    pegPEtab 20 10 = (20 : ℚ) / 10 ∧
    ((0 : ℚ) < 10 + 2 * 4 → fisherPegAdvanced 20 10 4 = FVal.fin (20 / (10 + 2 * 4))) ∧
    ((10 : ℚ) + 2 * 4 ≤ 0 → fisherPegAdvanced 20 10 4 = FVal.posInf) ∧
    ((0 : ℚ) < 10 - 4 → adjustedPegPEtab 20 10 4 = FVal.fin (20 / (10 - 4))) ∧
    ((10 : ℚ) - 4 ≤ 0 → adjustedPegPEtab 20 10 4 = FVal.posInf) ∧
    pegAdvanced 20 10 = FVal.fin 2 ∧
    fisherPegAdvanced 20 10 4 = FVal.fin (10 / 9) ∧
    adjustedPegPEtab 20 10 4 = FVal.fin (10 / 3) :=
  C4_amended 20 10 4 (by norm_num)

/-- Capital-structure weights of the WACC calculator
(modules/core/wacc.py lines 36-41): V = debt + market cap, replaced by 1
when it is zero; E/V = market_cap / V, D/V = debt / V. -/
def waccWeights (debt marketCap : ℚ) : ℚ × ℚ :=
  let totalVal := debt + marketCap
  let totalVal2 := if totalVal = 0 then 1 else totalVal
  (marketCap / totalVal2, debt / totalVal2)

/-- The WACC of modules/core/wacc.py lines 36-56: cost of debt
interest / debt when debt > 0 else 5%, tax rate fixed at 21%, cost of
equity rf + beta * ERP, WACC = E/V * Re + D/V * Rd * (1 - tax). -/
def coreWacc (debt marketCap interest rf beta erp : ℚ) : ℚ :=
  let w := waccWeights debt marketCap
  let costDebt := if 0 < debt then interest / debt else 1 / 20
  let costEquity := rf + beta * erp
  w.1 * costEquity + w.2 * costDebt * (1 - 21 / 100)

/-- C8: when market cap and total debt are both zero the denominator is
replaced by 1, so the weights are E/V = 0 and D/V = 0 - not a
100%-equity split - and the WACC evaluates to 0 rather than the cost of
equity (rf 4%, beta 1.2, ERP 5.5% give cost of equity 10.6%). -/
theorem C8_counterexample :
    waccWeights 0 0 = (0, 0) ∧
    ((waccWeights 0 0).1 ≠ 1) ∧
    coreWacc 0 0 0 (1 / 25) (6 / 5) (11 / 200) = 0 ∧
    ((1 : ℚ) / 25 + (6 / 5) * (11 / 200) ≠ 0) := by
  refine ⟨?_, ?_, ?_, by norm_num⟩
  · simp [waccWeights]
  · simp [waccWeights]
  · simp [coreWacc, waccWeights]

/-- C8 amended: whenever market cap + debt is nonzero the weights are
E/V = market_cap / (market_cap + debt) and D/V = debt / (market_cap +
debt) = 1 - E/V; when both are zero the denominator is replaced by 1,
giving E/V = D/V = 0 and a WACC of 0 for every choice of the other
inputs (not a 100%-equity fallback). -/
theorem C8_amended (mc debt : ℚ) (h : debt + mc ≠ 0) :
    (waccWeights debt mc).1 = mc / (mc + debt) ∧
    (waccWeights debt mc).2 = debt / (mc + debt) ∧
    (waccWeights debt mc).2 = 1 - (waccWeights debt mc).1 ∧
    waccWeights 0 0 = (0, 0) ∧
    (∀ i rf beta erp : ℚ, coreWacc 0 0 i rf beta erp = 0) := by
  have hcomm : mc + debt = debt + mc := by ring
  refine ⟨?_, ?_, ?_, by simp [waccWeights], ?_⟩
  · simp [waccWeights, h, hcomm]
  · simp [waccWeights, h, hcomm]
  · simp only [waccWeights, if_neg h]
    field_simp
  · intro i rf beta erp
    simp [coreWacc, waccWeights]

/-- C8 amended, witnessed at market cap 3, debt 1. -/
theorem C8_amended_witness :
    (waccWeights 1 3).1 = (3 : ℚ) / (3 + 1) ∧
    (waccWeights 1 3).2 = (1 : ℚ) / (3 + 1) ∧
    (waccWeights 1 3).2 = 1 - (waccWeights 1 3).1 ∧
    waccWeights 0 0 = (0, 0) ∧
    (∀ i rf beta erp : ℚ, coreWacc 0 0 i rf beta erp = 0) :=
  C8_amended 3 1 (by norm_num)

/-- A linear congruential step standing in for the NumPy global generator
state transition.  The Monte Carlo tab pins the random source with
np.random.seed(42) (modules/valuation/valuation_advanced.py line 682);
its documented contract - the draw sequence is a deterministic function
of the seed - is all the embedding relies on, so the exact
Mersenne-Twister bit stream is replaced by this stream. -/
def lcg (s : ℕ) : ℕ := (1103515245 * s + 12345) % 2 ^ 31

/-- A deterministic standard-normal-like deviate read off a generator
state (a value in [-3, 3]); stands in for the unit draw inside
np.random.normal. -/
def stdDeviate (s : ℕ) : ℚ := ((s % 6001 : ℕ) : ℚ) / 1000 - 3

/-- One growth draw of the Monte Carlo loop
(modules/valuation/valuation_advanced.py lines 686-689):
normal(mean, std) clamped to [-0.3, 0.6]. -/
def drawGrowth (mean std : ℚ) (s : ℕ) : ℚ :=
  max (-(3 / 10)) (min (6 / 10) (mean + std * stdDeviate s))

/-- One trial enterprise value
(modules/valuation/valuation_advanced.py lines 691-701): the 5-year
projection loop, then a terminal value with the growth rate fixed at
2.5% - term_val = curr * 1.025 / (wacc - 0.025) - with no guard that
wacc exceeds 2.5%; the appended value is scaled to billions. -/
def mcTrialEv (fcf w g : ℚ) : ℚ :=
  let s := projectFive fcf g w
  let termVal := s.1 * (1 + 1 / 40) / (w - 1 / 40)
  (s.2 + termVal / (1 + w) ^ 5) / 10 ^ 9

/-- The sequence of growth rates drawn over n trials from generator
state s. -/
def mcGrowths (mean std : ℚ) : ℕ → ℕ → List ℚ
  | 0, _ => []
  | n + 1, s =>
    let s2 := lcg s
    drawGrowth mean std s2 :: mcGrowths mean std n s2

/-- The n serial trials of the Monte Carlo loop from generator state s. -/
def mcTrials (fcf w mean std : ℚ) : ℕ → ℕ → List ℚ
  | 0, _ => []
  | n + 1, s =>
    let s2 := lcg s
    mcTrialEv fcf w (drawGrowth mean std s2) :: mcTrials fcf w mean std n s2

/-- A full simulation run: the generator is seeded with the constant 42
before the loop, so the run is a pure function of (fcf, wacc, mean, std,
n). -/
def runMonteCarlo (fcf w mean std : ℚ) (n : ℕ) : List ℚ :=
  mcTrials fcf w mean std n 42

def insertSorted (x : ℚ) : List ℚ → List ℚ
  | [] => [x]
  | y :: ys => if x ≤ y then x :: y :: ys else y :: insertSorted x ys

def sortAsc (xs : List ℚ) : List ℚ := xs.foldr insertSorted []

/-- np.percentile with linear interpolation on the sorted data, as read
by the result metrics (P10/P50/P90). -/
def percentile (xs : List ℚ) (q : ℚ) : ℚ :=
  let ys := sortAsc xs
  let n := ys.length
  if n = 0 then 0
  else
    let rank : ℚ := q / 100 * ((n : ℚ) - 1)
    let lo : ℕ := ⌊rank⌋.toNat
    let frac : ℚ := rank - (lo : ℚ)
    let a := ys.getD lo 0
    let b := ys.getD (min (lo + 1) (n - 1)) 0
    a + frac * (b - a)

/-- np.mean of the trial values. -/
def listMean (xs : List ℚ) : ℚ := xs.sum / xs.length

theorem mcTrials_eq_map (fcf w mean std : ℚ) :
    ∀ n s, mcTrials fcf w mean std n s = (mcGrowths mean std n s).map (mcTrialEv fcf w) := by
  intro n
  induction n with
  | zero =>
      intro s
      rfl
  | succ n ih =>
      intro s
      simp [mcTrials, mcGrowths, ih]

theorem mcTrials_length (fcf w mean std : ℚ) :
    ∀ n s, (mcTrials fcf w mean std n s).length = n := by
  intro n
  induction n with
  | zero =>
      intro s
      rfl
  | succ n ih =>
      intro s
      simp [mcTrials, ih]

/-- C9: with the seed fixed (the code pins it at 42) and the inputs
fixed, two Monte Carlo runs draw the same growth sequence - every run
equals the trial-EV map over the seed-determined growth draws - and
produce identical trial values, hence identical P10/P50/P90 and mean. -/
theorem C9_monte_carlo_deterministic (fcf w mean std : ℚ) (n : ℕ) :
    runMonteCarlo fcf w mean std n = runMonteCarlo fcf w mean std n ∧
    runMonteCarlo fcf w mean std n = (mcGrowths mean std n 42).map (mcTrialEv fcf w) ∧
    percentile (runMonteCarlo fcf w mean std n) 10 =
      percentile (runMonteCarlo fcf w mean std n) 10 ∧
    percentile (runMonteCarlo fcf w mean std n) 50 =
      percentile (runMonteCarlo fcf w mean std n) 50 ∧
    percentile (runMonteCarlo fcf w mean std n) 90 =
      percentile (runMonteCarlo fcf w mean std n) 90 ∧
    listMean (runMonteCarlo fcf w mean std n) = listMean (runMonteCarlo fcf w mean std n) :=
  ⟨rfl, mcTrials_eq_map fcf w mean std n 42, rfl, rfl, rfl, rfl⟩

theorem projectFive_fst (fcf g w : ℚ) : (projectFive fcf g w).1 = fcf * (1 + g) ^ 5 := by
  simp only [projectFive, projStep, List.foldl]
  ring

/-- C10: the Monte Carlo terminal value divides by (wacc - 0.025) with no
precondition.  For every WACC below 2.5% the denominator is negative (at
exactly 2.5% it is zero), so with positive base FCF each trial's terminal
value is negative; concretely at WACC 2% the trial EV is negative and a
1-trial run reports a distribution containing it; the simulation never
rejects - it always emits exactly n trial values - unlike the forward
DCF, which rejects such a WACC. -/
theorem C10_monte_carlo_unguarded_terminal (w fcf g : ℚ)
    (hw : w < 1 / 40) (hf : 0 < fcf) (hg : 0 < 1 + g) :
    w - 1 / 40 < 0 ∧
    (projectFive fcf g w).1 * (1 + 1 / 40) / (w - 1 / 40) < 0 ∧
    mcTrialEv 1 (1 / 50) 0 < 0 ∧
    runMonteCarlo 1 (1 / 50) 0 0 1 = [mcTrialEv 1 (1 / 50) 0] ∧
    (∀ m, (runMonteCarlo fcf w 0 0 m).length = m) ∧
    dcfRun fcf g w (1 / 40) = Except.error "WACC must exceed the terminal growth rate" := by
  have hden : w - 1 / 40 < 0 := by linarith
  refine ⟨hden, ?_, ?_, ?_, ?_, ?_⟩
  · rw [projectFive_fst]
    have hnum : 0 < fcf * (1 + g) ^ 5 * (1 + 1 / 40) :=
      mul_pos (mul_pos hf (pow_pos hg 5)) (by norm_num)
    exact div_neg_of_pos_of_neg hnum hden
  · rw [show mcTrialEv 1 (1 / 50) 0 = dcfEv 1 0 (1 / 50) (1 / 40) / 10 ^ 9 from rfl]
    rw [dcfEv_eq]
    norm_num
  · simp [runMonteCarlo, mcTrials, drawGrowth]
    norm_num
  · intro m
    exact mcTrials_length fcf w 0 0 m 42
  · unfold dcfRun
    rw [if_pos (le_of_lt hw)]

/-- C10 witnessed at WACC 2%, base FCF 1, growth 0. -/
theorem C10_monte_carlo_unguarded_terminal_witness :
    (1 : ℚ) / 50 - 1 / 40 < 0 ∧
    (projectFive 1 0 (1 / 50)).1 * (1 + 1 / 40) / ((1 : ℚ) / 50 - 1 / 40) < 0 ∧
    mcTrialEv 1 (1 / 50) 0 < 0 ∧
    runMonteCarlo 1 (1 / 50) 0 0 1 = [mcTrialEv 1 (1 / 50) 0] ∧
    (∀ m, (runMonteCarlo 1 (1 / 50) 0 0 m).length = m) ∧
    dcfRun 1 0 (1 / 50) (1 / 40) =
      Except.error "WACC must exceed the terminal growth rate" :=
  C10_monte_carlo_unguarded_terminal (1 / 50) 1 0 (by norm_num) (by norm_num) (by norm_num)

end StockWard
